import Mathlib

/-!
gosaaslab: lifecycle of the static-asset server (`main.go`)

The program is one function, `main`, plus the goroutine it launches.  The
embedding is a small-step interleaving semantics:

* `MainPc` and `SrvPc` are the program points of the main goroutine and of
  the server goroutine, one per statement of `main.go`;
* `Choice` is what happens next: one of the two goroutines executes its next
  statement, a library call returns a value chosen by the environment
  (`fs.Sub`, `srv.ListenAndServe`, `srv.Shutdown`), or the operating system
  delivers a signal;
* `step` executes one choice, `run` a whole schedule.  A choice that is not
  enabled in the current state leaves the state unchanged, so the schedules
  (lists of choices) enumerate every interleaving of the two goroutines with
  every behaviour of the environment;
* `State.trace` records the observable events in order: log messages, the
  calls of `ListenAndServe` and `Shutdown`, the receive from the `stop`
  channel, the exit of the process.

Scope of the model.  The library calls return whatever the environment
chooses, at any time after the call; no assumption is made on it.  Signals are
the two kinds `main` registers for, and they are relayed to the channel from
the moment `signal.Notify` has run; a signal that arrives earlier is not
relayed, and the default action the Go runtime takes on it instead is outside
the program and is not modelled.
`log.Fatalf` is one step (print, then `os.Exit(1)`); the return of `main` ends
the process with status 0.  Request handling itself (the mux and the file
server of the standard library) is not part of the model: `main` only
constructs and registers them.

The lifecycle states of the specification are read off the main goroutine
(`phase`): created until the `go` statement, running until the receive
`<-stop` completes, shutting down until the process exits, stopped afterwards.

Where a statement is about what `srv.Shutdown` returns for given requests in
flight, `shutdownOutcome` stands for this function of the standard library.
-/

namespace GoSaasLab

/-! ## Data -/

/-- Go `time.Duration`: a signed count of nanoseconds. -/
abbrev Duration := Int

/-- Go `time.Second`. -/
def time.Second : Duration := 1000000000

/-- The `error` values the program handles.  `serverClosed` is the sentinel
`http.ErrServerClosed`, `deadlineExceeded` is `context.DeadlineExceeded`;
`other` is any other error, with its text.  A Go `nil` error is `none` in
`Option Err`. -/
inductive Err where
  | serverClosed
  | deadlineExceeded
  | other (msg : String)
  deriving DecidableEq, Repr

/-- Go `err.Error()`, the text `%v` prints. -/
def Err.error : Err → String
  | .serverClosed => "http: Server closed"
  | .deadlineExceeded => "context deadline exceeded"
  | .other msg => msg

/-- The signals named in `signal.Notify(stop, os.Interrupt, syscall.SIGTERM)`. -/
inductive Signal where
  | interrupt
  | sigterm
  deriving DecidableEq, Repr

/-- The `http.Server` literal of `main` (lines 34-40); `Handler` holds the
routes of the mux it is given. -/
structure Server where
  Addr : String
  Handler : List (String × String)
  ReadTimeout : Duration
  WriteTimeout : Duration
  IdleTimeout : Duration
  deriving DecidableEq, Repr

/-- The routes registered on the mux (lines 29-30): the pattern and the
directory of the embedded bundle the file server is rooted at. -/
def muxRoutes : List (String × String) := [("GET /", "web/public")]

/-- The value `srv` is constructed with (lines 34-40). -/
def srvConfig : Server :=
  { Addr := ":8080"
    Handler := muxRoutes
    ReadTimeout := 10 * time.Second
    WriteTimeout := 30 * time.Second
    IdleTimeout := 60 * time.Second }

/-- The timeout of the shutdown context (line 57). -/
def shutdownTimeout : Duration := 15 * time.Second

/-- The signals `main` registers on the `stop` channel (line 52). -/
def notifySignals : List Signal := [.interrupt, .sigterm]

/-- Capacity of the `stop` channel (line 51). -/
def stopCapacity : Nat := 1

/-- The messages `main` writes to the log. -/
inductive LogMsg where
  | subFailed (e : Err)
  | serverStarting (addr : String)
  | serverFailed (e : Err)
  | signalReceived
  | forcedShutdown (e : Err)
  | exitedGracefully
  deriving DecidableEq, Repr

/-- The text of a log message, as the format strings of `main.go` produce it. -/
def LogMsg.render : LogMsg → String
  | .subFailed e => "fs.Sub: " ++ e.error ++ "\n"
  | .serverStarting addr => "Server starting on http://localhost" ++ addr
  | .serverFailed e => "Server failed: " ++ e.error
  | .signalReceived => "Shutdown signal received, initiating graceful shutdown..."
  | .forcedShutdown e => "Forced shutdown due to error: " ++ e.error
  | .exitedGracefully => "Server exited gracefully"

/-- Observable events of an execution, in the order they happen. -/
inductive Event where
  | log (m : LogMsg)
  | listenCalled (srv : Option Server)
  | received
  | shutdownCalled (timeout : Duration)
  | exit (status : Nat)
  deriving DecidableEq, Repr

/-- Program points of the main goroutine: the statement it executes next. -/
inductive MainPc where
  | atSub            -- line 23: fs.Sub(fileSys, "web/public")
  | atMux            -- lines 29-30: NewServeMux, Handle
  | atConfig         -- lines 34-40: srv := &http.Server{...}
  | atGo             -- line 43: go func() {...}()
  | atMakeChan       -- line 51: stop := make(chan os.Signal, 1)
  | atNotify         -- line 52: signal.Notify(stop, ...)
  | atRecv           -- line 53: <-stop
  | atLogSignal      -- line 55: log.Println
  | atCtx            -- lines 57-58: context.WithTimeout, defer cancel()
  | atShutdown       -- line 60: srv.Shutdown(ctx) is called
  | inShutdown       -- line 60: inside srv.Shutdown
  | shutdownReturned (err : Option Err)   -- line 60: err != nil ?
  | atLogGraceful    -- line 63: log.Println
  | atReturn         -- line 64: main returns
  | returned
  deriving DecidableEq, Repr

/-- Program points of the server goroutine (lines 43-48). -/
inductive SrvPc where
  | notStarted
  | atLogStart       -- line 44: log.Printf
  | atListen         -- line 45: srv.ListenAndServe() is called
  | inListen         -- line 45: inside srv.ListenAndServe
  | listenReturned (err : Option Err)   -- line 45: err != nil && err != ErrServerClosed ?
  | done
  deriving DecidableEq, Repr

/-- State of the process. -/
structure State where
  mainPc : MainPc
  srvPc : SrvPc
  routes : List (String × String)
  srv : Option Server
  stop : Option (List Signal)
  notify : List Signal
  ctx : Option Duration
  trace : List Event
  exited : Option Nat
  deriving DecidableEq, Repr

/-- What happens next. -/
inductive Choice where
  | subReturns (err : Option Err)
  | mainStep
  | shutdownReturns (err : Option Err)
  | serverStep
  | listenReturns (err : Option Err)
  | signal (sig : Signal)
  deriving DecidableEq, Repr

/-- The process at the entry of `main`. -/
def init : State :=
  { mainPc := .atSub, srvPc := .notStarted, routes := [], srv := none, stop := none,
    notify := [], ctx := none, trace := [], exited := none }

/-! ## Semantics -/

/-- Go `log.Fatalf`: print the message, then `os.Exit(1)`. -/
def fatalf (s : State) (m : LogMsg) : State :=
  { s with trace := s.trace ++ [.log m, .exit 1], exited := some 1 }

/-- Go `log.Printf` / `log.Println`. -/
def logPrint (s : State) (m : LogMsg) : State :=
  { s with trace := s.trace ++ [.log m] }

/-- The address the server logs and binds: `srv.Addr`. -/
def srvAddr (s : State) : String :=
  match s.srv with
  | some c => c.Addr
  | none => ""

/-- Delivery of a signal by `os/signal`: a registered signal is sent to the
channel without blocking, so it is dropped when the buffer is full. -/
def deliver (s : State) (sig : Signal) : State :=
  match s.stop with
  | some buf =>
    if sig ∈ s.notify ∧ buf.length < stopCapacity then { s with stop := some (buf ++ [sig]) }
    else s
  | none => s

/-- The function `main` (lines 18-64), one statement at a time: the state
after the next statement of the main goroutine.  The two statements that take
a value from the environment, the return of `fs.Sub` and the return of
`srv.Shutdown`, are in `step`. -/
def main (s : State) : State :=
  match s.mainPc with
  | .atMux => { s with routes := muxRoutes, mainPc := .atConfig }
  | .atConfig => { s with srv := some srvConfig, mainPc := .atGo }
  | .atGo => { s with srvPc := .atLogStart, mainPc := .atMakeChan }
  | .atMakeChan => { s with stop := some [], mainPc := .atNotify }
  | .atNotify => { s with notify := notifySignals, mainPc := .atRecv }
  | .atRecv =>
    match s.stop with
    | some (_ :: rest) =>
      { s with stop := some rest, trace := s.trace ++ [.received], mainPc := .atLogSignal }
    | _ => s
  | .atLogSignal => { logPrint s .signalReceived with mainPc := .atCtx }
  | .atCtx => { s with ctx := some shutdownTimeout, mainPc := .atShutdown }
  | .atShutdown =>
    match s.ctx with
    | some d => { s with trace := s.trace ++ [.shutdownCalled d], mainPc := .inShutdown }
    | none => s
  | .shutdownReturned (some e) => fatalf s (.forcedShutdown e)
  | .shutdownReturned none => { s with mainPc := .atLogGraceful }
  | .atLogGraceful => { logPrint s .exitedGracefully with mainPc := .atReturn }
  | .atReturn => { s with trace := s.trace ++ [.exit 0], exited := some 0, mainPc := .returned }
  | _ => s

/-- The function literal of the `go` statement (lines 43-48), one statement
at a time: the state after the next statement of the server goroutine.  The
return of `srv.ListenAndServe` is in `step`. -/
def goFunc (s : State) : State :=
  match s.srvPc with
  | .atLogStart => { logPrint s (.serverStarting (srvAddr s)) with srvPc := .atListen }
  | .atListen => { s with trace := s.trace ++ [.listenCalled s.srv], srvPc := .inListen }
  | .listenReturned (some e) =>
    if e ≠ .serverClosed then fatalf s (.serverFailed e) else { s with srvPc := .done }
  | .listenReturned none => { s with srvPc := .done }
  | _ => s

/-- One step of the process.  Nothing happens after the process has exited. -/
def step (s : State) (c : Choice) : State :=
  match s.exited with
  | some _ => s
  | none =>
    match c with
    | .subReturns err =>
      match s.mainPc with
      | .atSub =>
        match err with
        | some e => fatalf s (.subFailed e)
        | none => { s with mainPc := .atMux }
      | _ => s
    | .mainStep => main s
    | .shutdownReturns err =>
      match s.mainPc with
      | .inShutdown => { s with mainPc := .shutdownReturned err }
      | _ => s
    | .serverStep => goFunc s
    | .listenReturns err =>
      match s.srvPc with
      | .inListen => { s with srvPc := .listenReturned err }
      | _ => s
    | .signal sig => deliver s sig

/-- Execution of a schedule. -/
def run (cs : List Choice) (s : State) : State :=
  cs.foldl step s

/-- The log of a trace. -/
def logOf (tr : List Event) : List LogMsg :=
  tr.filterMap fun e => match e with
    | .log m => some m
    | _ => none

/-! ## Lifecycle -/

/-- The lifecycle states of the server. -/
inductive Lifecycle where
  | created
  | running
  | shuttingDown
  | stopped
  deriving DecidableEq, Repr

/-- The lifecycle state of a process state: `stopped` once the process has
exited; otherwise `created` up to the `go` statement that starts the server
(line 43), `running` from there until a signal has been received from the
`stop` channel (line 53), `shuttingDown` from there on. -/
def phase (s : State) : Lifecycle :=
  match s.exited with
  | some _ => .stopped
  | none =>
    match s.mainPc with
    | .atSub | .atMux | .atConfig | .atGo => .created
    | .atMakeChan | .atNotify | .atRecv => .running
    | _ => .shuttingDown

/-- The lifecycle states an execution goes through, one per state visited. -/
def phases : List Choice → State → List Lifecycle
  | [], s => [phase s]
  | c :: cs, s => phase s :: phases cs (step s c)

/-- Removes consecutive repetitions: the sequence of distinct states visited. -/
def compress : List Lifecycle → List Lifecycle
  | a :: b :: rest => if a = b then compress (b :: rest) else a :: compress (b :: rest)
  | l => l

/-- The distinct lifecycle states a process state has behind it, read off the
program point of the main goroutine and the exit flag. -/
def visited (s : State) : List Lifecycle :=
  (match s.mainPc with
    | .atSub | .atMux | .atConfig | .atGo => [.created]
    | .atMakeChan | .atNotify | .atRecv => [.created, .running]
    | _ => [.created, .running, .shuttingDown]) ++
  (match s.exited with
    | some _ => [.stopped]
    | none => [])

/-! ## Shutdown of the server -/

/-- Result of `srv.Shutdown`: the error it returns and the time it took. -/
structure ShutdownOutcome where
  err : Option Err
  elapsed : Duration
  deriving DecidableEq, Repr

/-- Modelled from the spec: `srv.Shutdown` of the standard library, which
`main` calls and which is not under src/.  Given the deadline of the context
and the remaining durations of the requests in flight: when every request
completes before the deadline, shutdown completes normally once the last one
has finished; when the deadline elapses first, the remaining connections are
cut off and the failure is reported. -/
def shutdownOutcome (deadline : Duration) (inflight : List Duration) : ShutdownOutcome :=
  if inflight.all (fun d => decide (d < deadline)) then
    { err := none, elapsed := inflight.foldl max 0 }
  else
    { err := some .deadlineExceeded, elapsed := deadline }

/-! ## Observations -/

/-- A choice with the kind of the signal forgotten. -/
def Choice.eraseSignal : Choice → Choice
  | .signal _ => .signal .interrupt
  | c => c

/-- A state with the kinds of the buffered signals forgotten. -/
def State.eraseSignals (s : State) : State :=
  { s with stop := s.stop.map (List.map fun _ => Signal.interrupt) }

/-- Whether a choice is the delivery of a signal. -/
def Choice.isSignal : Choice → Bool
  | .signal _ => true
  | _ => false

/-- A state without the contents of the `stop` channel. -/
def State.hideStop (s : State) : State :=
  { s with stop := none }

/-- The signal a choice delivers, if it is a delivery. -/
def Choice.signalOf : Choice → Option Signal
  | .signal sig => some sig
  | _ => none

/-! ## Progress of the two goroutines -/

/-- Whether the main goroutine has constructed `srv` (lines 34-40). -/
def MainPc.pastConfig : MainPc → Bool
  | .atSub | .atMux | .atConfig => false
  | _ => true

/-- Whether the main goroutine has started the server goroutine (line 43). -/
def MainPc.pastGo : MainPc → Bool
  | .atSub | .atMux | .atConfig | .atGo => false
  | _ => true

/-- Whether the main goroutine has registered the signals (line 52). -/
def MainPc.pastNotify : MainPc → Bool
  | .atSub | .atMux | .atConfig | .atGo | .atMakeChan | .atNotify => false
  | _ => true

/-- Whether the main goroutine has completed the receive `<-stop` (line 53). -/
def MainPc.pastRecv : MainPc → Bool
  | .atSub | .atMux | .atConfig | .atGo | .atMakeChan | .atNotify | .atRecv => false
  | _ => true

/-- Whether the main goroutine has created the shutdown context (line 57). -/
def MainPc.pastCtx : MainPc → Bool
  | .atSub | .atMux | .atConfig | .atGo | .atMakeChan | .atNotify | .atRecv
  | .atLogSignal | .atCtx => false
  | _ => true

/-- Whether the main goroutine has called `srv.Shutdown` (line 60). -/
def MainPc.calledShutdown : MainPc → Bool
  | .inShutdown | .shutdownReturned _ | .atLogGraceful | .atReturn | .returned => true
  | _ => false

/-- Whether the main goroutine has logged the graceful exit (line 63). -/
def MainPc.loggedGraceful : MainPc → Bool
  | .atReturn | .returned => true
  | _ => false

/-- Whether the server goroutine has called `srv.ListenAndServe` (line 45). -/
def SrvPc.calledListen : SrvPc → Bool
  | .inListen | .listenReturned _ | .done => true
  | _ => false

/-- The events of the main goroutine from the receive `<-stop` on, by
program point. -/
def shutdownEvents : MainPc → List Event
  | .atLogSignal => [.received]
  | .atCtx | .atShutdown => [.received, .log .signalReceived]
  | .inShutdown | .shutdownReturned _ | .atLogGraceful =>
    [.received, .log .signalReceived, .shutdownCalled shutdownTimeout]
  | .atReturn =>
    [.received, .log .signalReceived, .shutdownCalled shutdownTimeout, .log .exitedGracefully]
  | .returned =>
    [.received, .log .signalReceived, .shutdownCalled shutdownTimeout, .log .exitedGracefully,
      .exit 0]
  | _ => []

/-! ## Schedules -/

/-- A schedule that brings the process to the receive `<-stop` with the
listener started: `fs.Sub` succeeds, the main goroutine runs up to the `go`
statement, the server goroutine logs and calls `ListenAndServe`, the main
goroutine creates the channel and registers the signals. -/
def startup : List Choice :=
  [.subReturns none, .mainStep, .mainStep, .mainStep, .serverStep, .serverStep,
    .mainStep, .mainStep]

/-- The schedule `startup`, then a SIGTERM is delivered and the main goroutine
runs until it is inside `srv.Shutdown`. -/
def untilShutdown : List Choice :=
  startup ++ [.signal .sigterm, .mainStep, .mainStep, .mainStep, .mainStep]

/-- The schedule `startup`, then the given signal is delivered, the main
goroutine runs through `srv.Shutdown`, which returns the given result, up to
the last statement of `main`. -/
def shutdownOn (sig : Signal) (r : Option Err) : List Choice :=
  startup ++ [.signal sig, .mainStep, .mainStep, .mainStep, .mainStep, .shutdownReturns r,
    .mainStep, .mainStep, .mainStep]

/-- The schedule `startup`, after which `ListenAndServe` fails to bind the
address and the server goroutine handles the error. -/
def bindFailure : List Choice :=
  startup ++ [.listenReturns (some (.other "listen tcp :8080: bind: address already in use")),
    .serverStep]

/-- The statements the main goroutine still has to execute once a signal is in
the channel, with `srv.Shutdown` finding no request in flight: receive, log,
context, call of `srv.Shutdown`, its return, the check, log, return. -/
def finishShutdown : List Choice :=
  [.mainStep, .mainStep, .mainStep, .mainStep,
    .shutdownReturns (shutdownOutcome shutdownTimeout []).err,
    .mainStep, .mainStep, .mainStep]

/-- A schedule after which the listener has started while the main goroutine
is still at the statement after the `go` statement: `fs.Sub` succeeds, the
main goroutine runs up to the `go` statement, the server goroutine logs and
calls `ListenAndServe`. -/
def listenerStarted : List Choice :=
  [.subReturns none, .mainStep, .mainStep, .mainStep, .serverStep, .serverStep]

/-- A schedule in which the one SIGTERM arrives after the listener has started
but before `main` has created the channel and called `signal.Notify`; the main
goroutine is then given every step of `finishShutdown`. -/
def earlySigterm : List Choice :=
  listenerStarted ++ [.signal .sigterm, .mainStep, .mainStep] ++ finishShutdown

/-! ## Transition relation and invariants -/

/-- The transitions of `step`, one constructor per statement and outcome,
each with the choice that takes it. -/
inductive Step : State → Choice → State → Prop where
  | subFail (s : State) (e : Err) : s.exited = none → s.mainPc = .atSub →
      Step s (.subReturns (some e)) (fatalf s (.subFailed e))
  | subOk (s : State) : s.exited = none → s.mainPc = .atSub →
      Step s (.subReturns none) { s with mainPc := .atMux }
  | mux (s : State) : s.exited = none → s.mainPc = .atMux →
      Step s .mainStep { s with routes := muxRoutes, mainPc := .atConfig }
  | config (s : State) : s.exited = none → s.mainPc = .atConfig →
      Step s .mainStep { s with srv := some srvConfig, mainPc := .atGo }
  | go (s : State) : s.exited = none → s.mainPc = .atGo →
      Step s .mainStep { s with srvPc := .atLogStart, mainPc := .atMakeChan }
  | makeChan (s : State) : s.exited = none → s.mainPc = .atMakeChan →
      Step s .mainStep { s with stop := some [], mainPc := .atNotify }
  | notify (s : State) : s.exited = none → s.mainPc = .atNotify →
      Step s .mainStep { s with notify := notifySignals, mainPc := .atRecv }
  | recv (s : State) (sig : Signal) (rest : List Signal) : s.exited = none → s.mainPc = .atRecv →
      s.stop = some (sig :: rest) →
      Step s .mainStep
        { s with stop := some rest, trace := s.trace ++ [.received], mainPc := .atLogSignal }
  | logSignal (s : State) : s.exited = none → s.mainPc = .atLogSignal →
      Step s .mainStep { logPrint s .signalReceived with mainPc := .atCtx }
  | mkCtx (s : State) : s.exited = none → s.mainPc = .atCtx →
      Step s .mainStep { s with ctx := some shutdownTimeout, mainPc := .atShutdown }
  | callShutdown (s : State) (d : Duration) : s.exited = none → s.mainPc = .atShutdown →
      s.ctx = some d →
      Step s .mainStep { s with trace := s.trace ++ [.shutdownCalled d], mainPc := .inShutdown }
  | shutdownRet (s : State) (err : Option Err) : s.exited = none → s.mainPc = .inShutdown →
      Step s (.shutdownReturns err) { s with mainPc := .shutdownReturned err }
  | forced (s : State) (e : Err) : s.exited = none → s.mainPc = .shutdownReturned (some e) →
      Step s .mainStep (fatalf s (.forcedShutdown e))
  | clean (s : State) : s.exited = none → s.mainPc = .shutdownReturned none →
      Step s .mainStep { s with mainPc := .atLogGraceful }
  | logGraceful (s : State) : s.exited = none → s.mainPc = .atLogGraceful →
      Step s .mainStep { logPrint s .exitedGracefully with mainPc := .atReturn }
  | ret (s : State) : s.exited = none → s.mainPc = .atReturn →
      Step s .mainStep
        { s with trace := s.trace ++ [.exit 0], exited := some 0, mainPc := .returned }
  | logStart (s : State) : s.exited = none → s.srvPc = .atLogStart →
      Step s .serverStep { logPrint s (.serverStarting (srvAddr s)) with srvPc := .atListen }
  | callListen (s : State) : s.exited = none → s.srvPc = .atListen →
      Step s .serverStep
        { s with trace := s.trace ++ [.listenCalled s.srv], srvPc := .inListen }
  | listenRet (s : State) (err : Option Err) : s.exited = none → s.srvPc = .inListen →
      Step s (.listenReturns err) { s with srvPc := .listenReturned err }
  | serverFail (s : State) (e : Err) : s.exited = none → s.srvPc = .listenReturned (some e) →
      e ≠ .serverClosed → Step s .serverStep (fatalf s (.serverFailed e))
  | serverEnd (s : State) (err : Option Err) : s.exited = none → s.srvPc = .listenReturned err →
      (err = none ∨ err = some .serverClosed) → Step s .serverStep { s with srvPc := .done }
  | deliver (s : State) (sig : Signal) (buf : List Signal) : s.exited = none →
      s.stop = some buf → sig ∈ s.notify → buf.length < stopCapacity →
      Step s (.signal sig) { s with stop := some (buf ++ [sig]) }

/-- Facts that hold in every state an execution reaches: what the trace and
the variables contain at each program point. -/
structure Inv (s : State) : Prop where
  exitFree : s.exited = none → ∀ n, Event.exit n ∉ s.trace
  exitZero : s.exited = some 0 ↔ s.mainPc = .returned
  exitCode : ∀ n, s.exited = some n → n = 0 ∨ n = 1
  recvCount : s.trace.count .received = if s.mainPc.pastRecv then 1 else 0
  shutCount : ∀ d, s.trace.count (.shutdownCalled d) =
    if s.mainPc.calledShutdown ∧ d = shutdownTimeout then 1 else 0
  listenCount : ∀ c, s.trace.count (.listenCalled c) =
    if s.srvPc.calledListen ∧ c = some srvConfig then 1 else 0
  graceful : Event.log .exitedGracefully ∈ s.trace ↔ s.mainPc.loggedGraceful
  forced : ∀ e, Event.log (.forcedShutdown e) ∈ s.trace →
    s.mainPc = .shutdownReturned (some e) ∧ s.exited = some 1
  srv : s.srv = if s.mainPc.pastConfig then some srvConfig else none
  ctx : s.mainPc.pastCtx → s.ctx = some shutdownTimeout
  notify : s.notify = if s.mainPc.pastNotify then notifySignals else []
  started : s.srvPc = .notStarted ↔ ¬ s.mainPc.pastGo
  srvStarted : s.srvPc ≠ .notStarted → s.srv = some srvConfig

/-- Facts about the order of the events of the trace of a reachable state. -/
structure Ord (s : State) : Prop where
  recvFirst : ∀ l1 l2 d, s.trace = l1 ++ Event.shutdownCalled d :: l2 → Event.received ∈ l1
  exitLast : ∀ l1 l2 n, s.trace = l1 ++ Event.exit n :: l2 →
    l2 = [] ∧ s.exited = some n ∧
    (Event.shutdownCalled shutdownTimeout ∈ l1 ∨
      (n = 1 ∧ ∃ e l0, l1 = l0 ++ [Event.log (.subFailed e)] ∨
        l1 = l0 ++ [Event.log (.serverFailed e)]))
  forcedAfter : ∀ l1 l2 e, s.trace = l1 ++ Event.log (.forcedShutdown e) :: l2 →
    Event.shutdownCalled shutdownTimeout ∈ l1
  abortSub : s.mainPc.pastGo = false → (s.exited = none ∧ s.trace = []) ∨
    (∃ e, s.exited = some 1 ∧ s.trace = [Event.log (.subFailed e), Event.exit 1])
  abortSrv : s.mainPc.pastGo = true → s.mainPc.pastRecv = false → ∀ n, s.exited = some n →
    ∃ e l, s.trace = l ++ [Event.log (.serverFailed e), Event.exit 1]

/-- What the main goroutine is doing once `srv.Shutdown` has returned `r`. -/
def Returned (r : Option Err) (s : State) : Prop :=
  s.mainPc = .shutdownReturned r ∨
    (r = none ∧ (s.mainPc = .atLogGraceful ∨ s.mainPc = .atReturn ∨ s.mainPc = .returned))

/-- The states of a clean shutdown that starts in `s0`, where the main
goroutine waits at `<-stop`: no call has failed, and the trace is that of `s0`
followed by the events of the shutdown so far. -/
structure Draining (s0 s : State) : Prop where
  noFail : ∀ n, s.exited = some n → n = 0
  pc : s.mainPc.pastNotify = true
  clean : ∀ e, s.mainPc ≠ .shutdownReturned (some e)
  trace : s.trace = s0.trace ++ shutdownEvents s.mainPc
  ctx : s.mainPc = .atShutdown → s.ctx = some shutdownTimeout
  server : s.srvPc = .inListen ∨ s.srvPc = .listenReturned (some .serverClosed) ∨
    s.srvPc = .done

/-! ## The step function and its transitions -/

theorem step_exited (s : State) (c : Choice) (n : Nat) (h : s.exited = some n) :
    step s c = s := by
  simp [step, h]

theorem run_exited (cs : List Choice) (s : State) (n : Nat) (h : s.exited = some n) :
    run cs s = s := by
  induction cs with
  | nil => rfl
  | cons c cs ih => simp only [run, List.foldl_cons, step_exited s c n h]; exact ih

theorem run_append (cs cs2 : List Choice) (s : State) :
    run (cs ++ cs2) s = run cs2 (run cs s) := by
  simp [run, List.foldl_append]

theorem run_cons (c : Choice) (cs : List Choice) (s : State) :
    run (c :: cs) s = run cs (step s c) := rfl

theorem run_nil (s : State) : run [] s = s := rfl

theorem step_sound (s : State) (c : Choice) : step s c = s ∨ Step s c (step s c) := by
  cases hex : s.exited with
  | some n => left; exact step_exited s c n hex
  | none =>
    cases c with
    | subReturns err =>
      cases hm : s.mainPc <;> simp [step, hex, hm]
      cases err with
      | none => right; simpa [hex] using Step.subOk s hex hm
      | some e => right; simpa [hex] using Step.subFail s e hex hm
    | mainStep =>
      cases hm : s.mainPc with
      | atSub => left; simp [step, main, hex, hm]
      | atMux => right; simpa [step, main, hex, hm] using Step.mux s hex hm
      | atConfig => right; simpa [step, main, hex, hm] using Step.config s hex hm
      | atGo => right; simpa [step, main, hex, hm] using Step.go s hex hm
      | atMakeChan => right; simpa [step, main, hex, hm] using Step.makeChan s hex hm
      | atNotify => right; simpa [step, main, hex, hm] using Step.notify s hex hm
      | atRecv =>
        cases hs : s.stop with
        | none => left; simp [step, main, hex, hm, hs]
        | some buf =>
          cases buf with
          | nil => left; simp [step, main, hex, hm, hs]
          | cons sig rest =>
            right; simpa [step, main, hex, hm, hs] using Step.recv s sig rest hex hm hs
      | atLogSignal => right; simpa [step, main, hex, hm] using Step.logSignal s hex hm
      | atCtx => right; simpa [step, main, hex, hm] using Step.mkCtx s hex hm
      | atShutdown =>
        cases hc : s.ctx with
        | none => left; simp [step, main, hex, hm, hc]
        | some d => right; simpa [step, main, hex, hm, hc] using Step.callShutdown s d hex hm hc
      | inShutdown => left; simp [step, main, hex, hm]
      | shutdownReturned err =>
        cases err with
        | none => right; simpa [step, main, hex, hm] using Step.clean s hex hm
        | some e => right; simpa [step, main, hex, hm] using Step.forced s e hex hm
      | atLogGraceful => right; simpa [step, main, hex, hm] using Step.logGraceful s hex hm
      | atReturn => right; simpa [step, main, hex, hm] using Step.ret s hex hm
      | returned => left; simp [step, main, hex, hm]
    | shutdownReturns err =>
      cases hm : s.mainPc <;> simp [step, hex, hm]
      right; simpa [hex] using Step.shutdownRet s err hex hm
    | serverStep =>
      cases hv : s.srvPc with
      | notStarted => left; simp [step, goFunc, hex, hv]
      | atLogStart => right; simpa [step, goFunc, hex, hv] using Step.logStart s hex hv
      | atListen => right; simpa [step, goFunc, hex, hv] using Step.callListen s hex hv
      | inListen => left; simp [step, goFunc, hex, hv]
      | listenReturned err =>
        cases err with
        | none =>
          right; simpa [step, goFunc, hex, hv] using Step.serverEnd s none hex hv (Or.inl rfl)
        | some e =>
          by_cases he : e = .serverClosed
          · right
            simpa [step, goFunc, hex, hv, he] using
              Step.serverEnd s (some e) hex hv (Or.inr (by rw [he]))
          · right; simpa [step, goFunc, hex, hv, he] using Step.serverFail s e hex hv he
      | done => left; simp [step, goFunc, hex, hv]
    | listenReturns err =>
      cases hv : s.srvPc <;> simp [step, hex, hv]
      right; simpa [hex] using Step.listenRet s err hex hv
    | signal sig =>
      cases hs : s.stop with
      | none => left; simp [step, deliver, hex, hs]
      | some buf =>
        by_cases hd : sig ∈ s.notify ∧ buf.length < stopCapacity
        · right; simpa [step, deliver, hex, hs, hd] using Step.deliver s sig buf hex hs hd.1 hd.2
        · left; simp [step, deliver, hex, hs, hd]

/-! ## Invariants of every execution -/

theorem inv_init : Inv init := by
  constructor <;> simp [init, MainPc.pastRecv, MainPc.calledShutdown, SrvPc.calledListen,
    MainPc.loggedGraceful, MainPc.pastConfig, MainPc.pastCtx, MainPc.pastNotify, MainPc.pastGo]

theorem inv_of_step (s t : State) (c : Choice) (h : Inv s) (hst : Step s c t) : Inv t := by
  constructor
  · have h1 := h.exitFree
    cases hst <;> simp_all [fatalf, logPrint]
  · have h1 := h.exitZero
    cases hst <;> simp_all [fatalf, logPrint]
  · have h1 := h.exitCode
    cases hst <;> simp_all [fatalf, logPrint]
  · have h1 := h.recvCount
    cases hst <;> simp_all [fatalf, logPrint, MainPc.pastRecv, List.count_append,
      List.count_cons, List.count_nil]
  · have h1 := h.shutCount
    have h2 := h.ctx
    intro d
    specialize h1 d
    clear h
    cases hst <;> simp_all [fatalf, logPrint, MainPc.calledShutdown, MainPc.pastCtx,
      List.count_append, List.count_cons, List.count_nil]
    by_cases hd : d = shutdownTimeout
    · simp [hd]
    · simp [hd, Ne.symm hd]
  · have h1 := h.listenCount
    have h2 := h.started
    have h3 := h.srvStarted
    clear h
    intro c
    specialize h1 c
    cases hst <;> simp_all [fatalf, logPrint, SrvPc.calledListen, MainPc.pastGo,
      List.count_append, List.count_cons, List.count_nil]
    by_cases hc : c = some srvConfig
    · simp [hc]
    · simp [hc, Ne.symm hc]
  · have h1 := h.graceful
    cases hst <;> simp_all [fatalf, logPrint, MainPc.loggedGraceful]
  · have h1 := h.forced
    cases hst <;> simp_all [fatalf, logPrint]
  · have h1 := h.srv
    cases hst <;> simp_all [fatalf, logPrint, MainPc.pastConfig]
  · have h1 := h.ctx
    cases hst <;> simp_all [fatalf, logPrint, MainPc.pastCtx]
  · have h1 := h.notify
    cases hst <;> simp_all [fatalf, logPrint, MainPc.pastNotify]
  · have h1 := h.started
    cases hst <;> simp_all [fatalf, logPrint, MainPc.pastGo]
  · have h1 := h.srvStarted
    have h2 := h.srv
    have h3 := h.started
    clear h
    cases hst <;> simp_all [fatalf, logPrint, MainPc.pastGo, MainPc.pastConfig]

theorem inv_run (cs : List Choice) (s : State) (h : Inv s) : Inv (run cs s) := by
  induction cs generalizing s with
  | nil => exact h
  | cons c cs ih =>
    rw [run_cons]
    apply ih
    rcases step_sound s c with hs | hs
    · rw [hs]; exact h
    · exact inv_of_step s _ c h hs

theorem inv_reach (cs : List Choice) : Inv (run cs init) :=
  inv_run cs init inv_init

/-! ## Lifecycle states of an execution -/

theorem phases_ne_nil (cs : List Choice) (s : State) : phases cs s ≠ [] := by
  cases cs <;> simp [phases]

theorem phases_snoc (cs : List Choice) (c : Choice) (s : State) :
    phases (cs ++ [c]) s = phases cs s ++ [phase (step (run cs s) c)] := by
  induction cs generalizing s with
  | nil => simp [phases, run]
  | cons d cs ih => simp [phases, ih, run_cons]

theorem phases_getLast (cs : List Choice) (s : State) :
    (phases cs s).getLast? = some (phase (run cs s)) := by
  induction cs generalizing s with
  | nil => simp [phases, run]
  | cons d cs ih =>
    rw [phases, run_cons, ← ih]
    cases hp : phases cs (step s d) with
    | nil => exact absurd hp (phases_ne_nil _ _)
    | cons a l => simp [List.getLast?_cons_cons]

theorem compress_getLast (l : List Lifecycle) : (compress l).getLast? = l.getLast? := by
  induction l with
  | nil => simp [compress]
  | cons a l ih =>
    cases l with
    | nil => simp [compress]
    | cons b rest =>
      rw [compress]
      split
      · rw [ih, List.getLast?_cons_cons]
      · cases hc : compress (b :: rest) with
        | nil => 
          rw [hc, List.getLast?_nil, eq_comm, List.getLast?_eq_none_iff] at ih
          cases ih
        | cons x y => rw [List.getLast?_cons_cons, ← hc, ih, List.getLast?_cons_cons]

theorem compress_snoc (l : List Lifecycle) (q : Lifecycle) :
    compress (l ++ [q]) = if l.getLast? = some q then compress l else compress l ++ [q] := by
  induction l with
  | nil => simp [compress]
  | cons a l ih =>
    cases l with
    | nil => 
      simp only [List.cons_append, List.nil_append, compress, List.getLast?_singleton]
      by_cases h : a = q <;> simp [h, compress]
    | cons b rest =>
      simp only [List.cons_append] at ih ⊢
      rw [compress, ih, List.getLast?_cons_cons]
      by_cases h : a = b <;> by_cases h2 : (b :: rest).getLast? = some q <;> simp [h, h2, compress]

theorem visited_step (s : State) (c : Choice) :
    (if phase s = phase (step s c) then visited s else visited s ++ [phase (step s c)]) =
      visited (step s c) := by
  rcases step_sound s c with h | h
  · simp [h]
  · generalize step s c = t at h
    cases h <;> cases hm : s.mainPc <;> simp_all [phase, visited, fatalf, logPrint]

theorem visited_reach (cs : List Choice) : compress (phases cs init) = visited (run cs init) := by
  induction cs using List.reverseRecOn with
  | nil => simp [phases, compress, visited, run, init, phase]
  | append_singleton cs c ih =>
    rw [phases_snoc, compress_snoc, phases_getLast, ih, run_append, run_cons, run_nil,
      ← visited_step (run cs init) c]
    simp

/-! ## Order of the events -/

theorem split_append {x : Event} {tr es l1 l2 : List Event} (h : tr ++ es = l1 ++ x :: l2) :
    (∃ m, tr = l1 ++ x :: m ∧ l2 = m ++ es) ∨ (∃ m, l1 = tr ++ m ∧ es = m ++ x :: l2) := by
  rcases List.append_eq_append_iff.mp h with ⟨a, h1, h2⟩ | ⟨c, h1, h2⟩
  · exact Or.inr ⟨a, h1, h2⟩
  · cases c with
    | nil => exact Or.inr ⟨[], by simpa using h1.symm, by simpa using h2.symm⟩
    | cons y c =>
      simp only [List.cons_append, List.cons.injEq] at h2
      exact Or.inl ⟨c, by rw [h1, h2.1], h2.2⟩

theorem split_same {x : Event} {tr l1 l2 : List Event} (h : tr = l1 ++ x :: l2) : x ∈ tr := by
  simp [h]

theorem mem_of_count_one {x : Event} {tr : List Event} (h : tr.count x = 1) : x ∈ tr := by
  apply List.count_pos_iff.mp
  omega

theorem one_split {a x : Event} {m l2 : List Event} (h : [a] = m ++ x :: l2) :
    m = [] ∧ x = a ∧ l2 = [] := by
  cases m with
  | nil => simp at h; exact ⟨rfl, h.1.symm, h.2⟩
  | cons y m => simp at h

theorem two_split {a b x : Event} {m l2 : List Event} (h : [a, b] = m ++ x :: l2) :
    (m = [] ∧ x = a ∧ l2 = [b]) ∨ (m = [a] ∧ x = b ∧ l2 = []) := by
  cases m with
  | nil => simp at h; exact Or.inl ⟨rfl, h.1.symm, h.2.symm⟩
  | cons y m =>
    simp only [List.cons_append, List.cons.injEq] at h
    obtain ⟨h1, h2⟩ := h
    obtain ⟨rfl, hx, rfl⟩ := one_split h2
    exact Or.inr ⟨by rw [h1], hx, rfl⟩

theorem shut_mem (s : State)
    (h : s.trace.count (Event.shutdownCalled shutdownTimeout) =
      if s.mainPc.calledShutdown ∧ shutdownTimeout = shutdownTimeout then 1 else 0)
    (hc : s.mainPc.calledShutdown = true) : Event.shutdownCalled shutdownTimeout ∈ s.trace := by
  apply mem_of_count_one
  rw [h]
  simp [hc]

theorem ord_of_step (s t : State) (c : Choice) (hi : Inv s) (h : Ord s) (hst : Step s c t) : Ord t := by
  constructor
  · have h1 := h.recvFirst
    have h2 := hi.recvCount
    clear h hi
    intro l1 l2 d heq
    cases hst <;> simp only [fatalf, logPrint] at heq <;>
      first
      | exact h1 l1 l2 d heq
      | (rcases split_append heq with ⟨m, e1, e2⟩ | ⟨m, e1, e2⟩
         · exact h1 l1 m d e1
         · simp [List.append_eq_cons_iff, List.cons_eq_append_iff] at e2)
      | (rcases split_append heq with ⟨m, e1, e2⟩ | ⟨m, e1, e2⟩
         · exact h1 l1 m d e1
         · simp_all [List.append_eq_cons_iff, List.cons_eq_append_iff, MainPc.pastRecv]
           exact mem_of_count_one h2)
  · have h2 := hi.exitFree
    have h3 := hi.shutCount shutdownTimeout
    clear h hi
    intro l1 l2 n heq
    cases hst <;> simp only [fatalf, logPrint] at heq ⊢ <;>
      first
      | exact absurd (split_same heq) (h2 ‹_› n)
      | (rcases split_append heq with ⟨m, e1, e2⟩ | ⟨m, e1, e2⟩
         · exact absurd (split_same e1) (h2 ‹_› n)
         · obtain ⟨rfl, hx, rfl⟩ := one_split e2
           cases hx
           done)
      | (rcases split_append heq with ⟨m, e1, e2⟩ | ⟨m, e1, e2⟩
         · exact absurd (split_same e1) (h2 ‹_› n)
         · obtain ⟨rfl, hx, rfl⟩ := one_split e2
           cases hx
           subst e1
           refine ⟨rfl, rfl, Or.inl ?_⟩
           simpa using shut_mem s h3 (by rw [‹s.mainPc = MainPc.atReturn›]; rfl))
      | (rcases split_append heq with ⟨m, e1, e2⟩ | ⟨m, e1, e2⟩
         · exact absurd (split_same e1) (h2 ‹_› n)
         · rcases two_split e2 with ⟨rfl, hx, rfl⟩ | ⟨rfl, hx, rfl⟩
           · cases hx
           · cases hx
             subst e1
             exact ⟨rfl, rfl, Or.inr ⟨rfl, _, s.trace, Or.inl rfl⟩⟩)
      | (rcases split_append heq with ⟨m, e1, e2⟩ | ⟨m, e1, e2⟩
         · exact absurd (split_same e1) (h2 ‹_› n)
         · rcases two_split e2 with ⟨rfl, hx, rfl⟩ | ⟨rfl, hx, rfl⟩
           · cases hx
           · cases hx
             subst e1
             exact ⟨rfl, rfl, Or.inr ⟨rfl, _, s.trace, Or.inr rfl⟩⟩)
      | (rcases split_append heq with ⟨m, e1, e2⟩ | ⟨m, e1, e2⟩
         · exact absurd (split_same e1) (h2 ‹_› n)
         · rcases two_split e2 with ⟨rfl, hx, rfl⟩ | ⟨rfl, hx, rfl⟩
           · cases hx
           · cases hx
             subst e1
             refine ⟨rfl, rfl, Or.inl ?_⟩
             exact List.mem_append_left _ (shut_mem s h3 (by rw [‹s.mainPc = _›]; rfl)))
  · have h1 := h.forcedAfter
    have h3 := hi.shutCount shutdownTimeout
    clear h hi
    intro l1 l2 e heq
    cases hst <;> simp only [fatalf, logPrint] at heq <;>
      first
      | exact h1 l1 l2 e heq
      | (rcases split_append heq with ⟨m, e1, e2⟩ | ⟨m, e1, e2⟩
         · exact h1 l1 m e e1
         · obtain ⟨rfl, hx, rfl⟩ := one_split e2
           cases hx)
      | (rcases split_append heq with ⟨m, e1, e2⟩ | ⟨m, e1, e2⟩
         · exact h1 l1 m e e1
         · rcases two_split e2 with ⟨rfl, hx, rfl⟩ | ⟨rfl, hx, rfl⟩
           · cases hx
           · cases hx)
      | (rcases split_append heq with ⟨m, e1, e2⟩ | ⟨m, e1, e2⟩
         · exact h1 l1 m e e1
         · rcases two_split e2 with ⟨rfl, hx, rfl⟩ | ⟨rfl, hx, rfl⟩
           · cases hx
             subst e1
             simpa using shut_mem s h3 (by rw [‹s.mainPc = _›]; rfl)
           · cases hx)
  · have h1 := h.abortSub
    have h2 := hi.started
    clear h hi
    cases hst <;> simp_all [fatalf, logPrint, MainPc.pastGo]
  · have h1 := h.abortSrv
    clear h hi
    cases hst <;> simp_all [fatalf, logPrint, MainPc.pastGo, MainPc.pastRecv]
    exact fun _ _ => ⟨_, _, rfl⟩

theorem ord_init : Ord init := by
  constructor <;> simp [init, MainPc.pastGo]

theorem ord_run (cs : List Choice) (s : State) (hi : Inv s) (h : Ord s) : Ord (run cs s) := by
  induction cs generalizing s with
  | nil => exact h
  | cons c cs ih =>
    rw [run_cons]
    rcases step_sound s c with hs | hs
    · rw [hs]; exact ih s hi h
    · exact ih _ (inv_of_step s _ c hi hs) (ord_of_step s _ c hi h hs)

theorem ord_reach (cs : List Choice) : Ord (run cs init) :=
  ord_run cs init inv_init ord_init

/-! ## Lemmas on runs -/

theorem mem_logOf (m : LogMsg) (tr : List Event) : m ∈ logOf tr ↔ Event.log m ∈ tr := by
  simp only [logOf, List.mem_filterMap]
  constructor
  · rintro ⟨e, he, h⟩
    cases e <;> simp at h
    rw [← h]; exact he
  · intro h
    exact ⟨_, h, rfl⟩

theorem returned_step (r : Option Err) (s : State) (c : Choice) (h : Returned r s) :
    Returned r (step s c) := by
  rcases step_sound s c with hs | hs
  · rw [hs]; exact h
  · generalize step s c = t at hs
    unfold Returned at h ⊢
    cases hs <;> simp_all [fatalf, logPrint]

theorem returned_run (r : Option Err) (cs : List Choice) (s : State) (h : Returned r s) :
    Returned r (run cs s) := by
  induction cs generalizing s with
  | nil => exact h
  | cons c cs ih => exact ih _ (returned_step r s c h)

theorem pastConfig_step (s : State) (c : Choice) (h : s.mainPc.pastConfig = true) :
    (step s c).mainPc.pastConfig = true := by
  rcases step_sound s c with hs | hs
  · rw [hs]; exact h
  · generalize step s c = t at hs
    cases hs <;> simp_all [fatalf, logPrint, MainPc.pastConfig]

theorem pastConfig_run (cs : List Choice) (s : State) (h : s.mainPc.pastConfig = true) :
    (run cs s).mainPc.pastConfig = true := by
  induction cs generalizing s with
  | nil => exact h
  | cons c cs ih => exact ih _ (pastConfig_step s c h)

/-! ## The server configuration -/

/-- C3: the server is configured with address ":8080" and the fixed, strictly
positive timeouts 10 s (read), 30 s (write) and 60 s (idle); in every
execution `srv` holds exactly this value from its construction on, it never
changes afterwards, and `ListenAndServe` is only ever called on it. -/
theorem server_config_fixed (cs cs2 : List Choice) :
    srvConfig.Addr = ":8080" ∧
    srvConfig.ReadTimeout = 10 * time.Second ∧ srvConfig.WriteTimeout = 30 * time.Second ∧
    srvConfig.IdleTimeout = 60 * time.Second ∧ time.Second = 1000000000 ∧
    0 < srvConfig.ReadTimeout ∧ 0 < srvConfig.WriteTimeout ∧ 0 < srvConfig.IdleTimeout ∧
    (run cs init).srv = (if (run cs init).mainPc.pastConfig then some srvConfig else none) ∧
    ((run cs init).mainPc.pastConfig = true → (run (cs ++ cs2) init).srv = some srvConfig) ∧
    (∀ c, Event.listenCalled c ∈ (run cs init).trace → c = some srvConfig) := by
  refine ⟨rfl, rfl, rfl, rfl, rfl, by decide, by decide, by decide, (inv_reach cs).srv, ?_, ?_⟩
  · intro h
    have h2 := (inv_reach (cs ++ cs2)).srv
    rw [run_append] at h2 ⊢
    rw [h2, pastConfig_run cs2 _ h]
    rfl
  · intro c hc
    have h := (inv_reach cs).listenCount c
    have hpos := List.count_pos_iff.mpr hc
    by_contra hne
    simp [hne] at h
    omega

/-! ## Outcome of the shutdown call -/

/-- C1: once `srv.Shutdown` has returned `r`, the main goroutine's next
statements end the process: with status 0 after logging "Server exited
gracefully" when `r` is nil, with status 1 after logging "Forced shutdown due
to error: ..." with the error when it is not.  And whatever is scheduled after
the return: status 0 and the graceful message occur only when `r` is nil, the
forced message only for the error returned and with status 1, and after an
error the process never exits with 0 and never logs the graceful message. -/
theorem shutdown_outcome_decides_exit (cs cs2 : List Choice) (r : Option Err)
    (hmain : (run cs init).mainPc = .inShutdown) (hlive : (run cs init).exited = none) :
    (r = none →
      (run (cs ++ [.shutdownReturns r, .mainStep, .mainStep, .mainStep]) init).exited = some 0 ∧
      (run (cs ++ [.shutdownReturns r, .mainStep, .mainStep, .mainStep]) init).trace =
        (run cs init).trace ++ [.log .exitedGracefully, .exit 0]) ∧
    (∀ e, r = some e →
      (run (cs ++ [.shutdownReturns r, .mainStep]) init).exited = some 1 ∧
      (run (cs ++ [.shutdownReturns r, .mainStep]) init).trace =
        (run cs init).trace ++ [.log (.forcedShutdown e), .exit 1] ∧
      (LogMsg.forcedShutdown e).render = "Forced shutdown due to error: " ++ e.error) ∧
    ((run (cs ++ .shutdownReturns r :: cs2) init).exited = some 0 →
      r = none ∧
      LogMsg.exitedGracefully ∈ logOf (run (cs ++ .shutdownReturns r :: cs2) init).trace) ∧
    (LogMsg.exitedGracefully ∈ logOf (run (cs ++ .shutdownReturns r :: cs2) init).trace →
      r = none) ∧
    (∀ e, r = some e →
      (run (cs ++ .shutdownReturns r :: cs2) init).exited ≠ some 0 ∧
      LogMsg.exitedGracefully ∉ logOf (run (cs ++ .shutdownReturns r :: cs2) init).trace) ∧
    (∀ e, LogMsg.forcedShutdown e ∈ logOf (run (cs ++ .shutdownReturns r :: cs2) init).trace →
      r = some e ∧ (run (cs ++ .shutdownReturns r :: cs2) init).exited = some 1) := by
  have hret : Returned r (run (cs ++ .shutdownReturns r :: cs2) init) := by
    rw [run_append, run_cons]
    apply returned_run
    left
    simp [step, hlive, hmain]
  have hinv := inv_reach (cs ++ .shutdownReturns r :: cs2)
  generalize run (cs ++ .shutdownReturns r :: cs2) init = t at hret hinv
  simp only [run_append]
  generalize run cs init = s at hmain hlive
  have hz := hinv.exitZero
  have hg := hinv.graceful
  have hf := hinv.forced
  refine ⟨?_, ?_, ?_, ?_, ?_, ?_⟩
  · rintro rfl
    simp [run_cons, run_nil, step, main, hlive, hmain, logPrint]
  · rintro e rfl
    simp [run_cons, run_nil, step, main, hlive, hmain, fatalf, LogMsg.render]
  · intro h0
    rw [mem_logOf, hg]
    have hm := hz.mp h0
    rcases hret with h | ⟨h, _⟩
    · rw [hm] at h; cases h
    · exact ⟨h, by rw [hm]; rfl⟩
  · rw [mem_logOf, hg]
    intro hl
    rcases hret with h | ⟨h, _⟩
    · rw [h] at hl; cases hl
    · exact h
  · rintro e rfl
    rw [mem_logOf, hg]
    rcases hret with h | ⟨h, _⟩
    · constructor
      · intro h0
        rw [hz, h] at h0
        cases h0
      · rw [h]; simp [MainPc.loggedGraceful]
    · cases h
  · intro e he
    rw [mem_logOf] at he
    obtain ⟨h1, h2⟩ := hf e he
    refine ⟨?_, h2⟩
    rcases hret with h | ⟨_, h | h | h⟩ <;> rw [h1] at h <;> cases h
    rfl

/-- Instance of C1: after a SIGTERM, a `Shutdown` that runs into its deadline ends
the process with status 1, one that returns nil with status 0. -/
theorem shutdown_outcome_decides_exit_witness :
    (run (untilShutdown ++ [.shutdownReturns (some .deadlineExceeded), .mainStep]) init).exited
        = some 1 ∧
    (run (untilShutdown ++ [.shutdownReturns (some .deadlineExceeded), .mainStep]) init).trace =
      (run untilShutdown init).trace ++ [.log (.forcedShutdown .deadlineExceeded), .exit 1] ∧
    (run (untilShutdown ++ [.shutdownReturns none, .mainStep, .mainStep, .mainStep]) init).exited
        = some 0 :=
  ⟨((shutdown_outcome_decides_exit untilShutdown [] (some .deadlineExceeded)
      (by decide) (by decide)).2.1 _ rfl).1,
   ((shutdown_outcome_decides_exit untilShutdown [] (some .deadlineExceeded)
      (by decide) (by decide)).2.1 _ rfl).2.1,
   ((shutdown_outcome_decides_exit untilShutdown [] none (by decide) (by decide)).1 rfl).1⟩

/-! ## Errors of ListenAndServe -/

/-- C2: when `srv.ListenAndServe` returns an error other than
`http.ErrServerClosed`, the server goroutine's next statement logs "Server
failed: ..." with the error and ends the process with status 1, after which
nothing happens any more; when it returns `http.ErrServerClosed` the goroutine
just ends and the process goes on unchanged; and in every execution
`ListenAndServe` is called at most once. -/
theorem listen_error_is_fatal (cs cs2 : List Choice) (e : Err)
    (hsrv : (run cs init).srvPc = .inListen) (hlive : (run cs init).exited = none) :
    (e ≠ .serverClosed →
      (run (cs ++ [.listenReturns (some e), .serverStep]) init).exited = some 1 ∧
      (run (cs ++ [.listenReturns (some e), .serverStep]) init).trace =
        (run cs init).trace ++ [.log (.serverFailed e), .exit 1] ∧
      (LogMsg.serverFailed e).render = "Server failed: " ++ e.error ∧
      run (cs ++ [.listenReturns (some e), .serverStep] ++ cs2) init =
        run (cs ++ [.listenReturns (some e), .serverStep]) init) ∧
    (e = .serverClosed →
      run (cs ++ [.listenReturns (some e), .serverStep]) init =
        { run cs init with srvPc := .done }) ∧
    (∀ c, (run (cs ++ .listenReturns (some e) :: cs2) init).trace.count (.listenCalled c) ≤
      if c = some srvConfig then 1 else 0) := by
  refine ⟨?_, ?_, ?_⟩
  · intro he
    have hex : (run (cs ++ [.listenReturns (some e), .serverStep]) init).exited = some 1 := by
      rw [run_append]
      generalize run cs init = s at hsrv hlive
      simp [run_cons, run_nil, step, goFunc, hlive, hsrv, fatalf, he]
    refine ⟨hex, ?_, rfl, ?_⟩
    · rw [run_append]
      generalize run cs init = s at hsrv hlive
      simp [run_cons, run_nil, step, goFunc, hlive, hsrv, fatalf, he]
    · rw [run_append _ cs2]
      exact run_exited cs2 _ 1 hex
  · rintro rfl
    rw [run_append]
    generalize run cs init = s at hsrv hlive
    simp [run_cons, run_nil, step, goFunc, hlive, hsrv]
  · intro c
    have h := (inv_reach (cs ++ .listenReturns (some e) :: cs2)).listenCount c
    rw [h]
    by_cases hc : c = some srvConfig <;> simp [hc]
    split <;> simp

/-- Instance of C2: the address is already in use. -/
theorem listen_error_is_fatal_witness :
    (run bindFailure init).exited = some 1 ∧
    (run bindFailure init).trace =
      (run startup init).trace ++
        [.log (.serverFailed (.other "listen tcp :8080: bind: address already in use")),
          .exit 1] :=
  ⟨((listen_error_is_fatal startup []
      (.other "listen tcp :8080: bind: address already in use")
      (by decide) (by decide)).1 (by decide)).1,
   ((listen_error_is_fatal startup []
      (.other "listen tcp :8080: bind: address already in use")
      (by decide) (by decide)).1 (by decide)).2.1⟩

/-! ## The lifecycle -/

/-- C5, as stated, fails: when `ListenAndServe` fails to bind, the process goes
from `running` to `stopped` without ever being in `shuttingDown`. -/
theorem lifecycle_skips_shuttingDown_on_bind_failure :
    compress (phases bindFailure init) = [.created, .running, .stopped] ∧
    Lifecycle.shuttingDown ∉ phases bindFailure init ∧
    phase (run bindFailure init) = .stopped := by
  decide

/-- C5, amended: in every execution the distinct lifecycle states visited are
an initial part of created, running, shuttingDown, stopped, or that sequence
with a direct move to stopped from created or from running; such a move is an
abort through `log.Fatalf`, on a failure of `fs.Sub` or of `ListenAndServe`.
So shuttingDown is entered at most once and only from running, stopped is
terminal, and an execution that exits with status 0 has gone through all four
states in order. -/
theorem lifecycle_order (cs : List Choice) :
    compress (phases cs init) ∈
      [[.created], [.created, .running], [.created, .running, .shuttingDown],
        [.created, .running, .shuttingDown, .stopped],
        [.created, .running, .stopped], [.created, .stopped]] ∧
    (compress (phases cs init)).count .shuttingDown ≤ 1 ∧
    (∀ c, phase (run cs init) = .stopped → step (run cs init) c = run cs init) ∧
    ((run cs init).exited = some 0 →
      compress (phases cs init) = [.created, .running, .shuttingDown, .stopped]) ∧
    (compress (phases cs init) = [.created, .stopped] →
      ∃ e, (run cs init).trace = [.log (.subFailed e), .exit 1]) ∧
    (compress (phases cs init) = [.created, .running, .stopped] →
      ∃ e l, (run cs init).trace = l ++ [.log (.serverFailed e), .exit 1]) := by
  have hv := visited_reach cs
  have hi := inv_reach cs
  have ho := ord_reach cs
  generalize run cs init = s at hv hi ho
  rw [hv]
  have hz := hi.exitZero
  have h1 := ho.abortSub
  have h2 := ho.abortSrv
  clear hv hi ho
  refine ⟨?_, ?_, ?_, ?_, ?_, ?_⟩
  · unfold visited
    cases s.mainPc <;> cases s.exited <;> simp
  · unfold visited
    cases s.mainPc <;> cases s.exited <;> simp
  · intro c hp
    cases hex : s.exited with
    | some n => exact step_exited s c n hex
    | none =>
      exfalso
      unfold phase at hp
      rw [hex] at hp
      cases hm : s.mainPc <;> simp [hm] at hp
  · intro h0
    rw [hz] at h0
    simp [visited, h0, hz.mpr h0]
  · intro hvis
    cases hm : s.mainPc <;> cases hex : s.exited <;> simp [visited, hm, hex] at hvis <;>
      simp_all [MainPc.pastGo]
  · intro hvis
    cases hm : s.mainPc <;> cases hex : s.exited <;> simp [visited, hm, hex] at hvis <;>
      simp_all [MainPc.pastGo, MainPc.pastRecv]

/-! ## Order of signal, shutdown and exit -/

/-- C6, as stated, fails: when `ListenAndServe` fails to bind, the process
exits although no signal was received and `srv.Shutdown` was never called. -/
theorem exit_without_shutdown_on_bind_failure :
    Event.exit 1 ∈ (run bindFailure init).trace ∧
    Event.received ∉ (run bindFailure init).trace ∧
    (∀ d, Event.shutdownCalled d ∉ (run bindFailure init).trace) := by
  have h : (run bindFailure init).trace =
      [Event.log (.serverStarting ":8080"), Event.listenCalled (some srvConfig),
        Event.log (.serverFailed (.other "listen tcp :8080: bind: address already in use")),
        Event.exit 1] := by decide
  rw [h]
  simp

/-- C6, amended: in the trace of every execution, `srv.Shutdown` is called
only after a signal has been received from the stop channel, with the
15-second timeout, and at most once; an exit is the last event; an exit with
status 0 and the forced-shutdown message are preceded by the call of
`srv.Shutdown`; and an exit that is not preceded by it has status 1 and
directly follows the `log.Fatalf` message of a failed `fs.Sub` or of a failed
`ListenAndServe`. -/
theorem shutdown_follows_signal (cs : List Choice) :
    (∀ l1 l2 d, (run cs init).trace = l1 ++ Event.shutdownCalled d :: l2 →
      Event.received ∈ l1 ∧ d = shutdownTimeout) ∧
    (∀ d, (run cs init).trace.count (.shutdownCalled d) ≤ if d = shutdownTimeout then 1 else 0) ∧
    (∀ l1 l2 n, (run cs init).trace = l1 ++ Event.exit n :: l2 →
      l2 = [] ∧
      (Event.shutdownCalled shutdownTimeout ∈ l1 ∨
        (n = 1 ∧ ∃ e l0, l1 = l0 ++ [Event.log (.subFailed e)] ∨
          l1 = l0 ++ [Event.log (.serverFailed e)]))) ∧
    (∀ l1 l2, (run cs init).trace = l1 ++ Event.exit 0 :: l2 →
      Event.shutdownCalled shutdownTimeout ∈ l1) ∧
    (∀ l1 l2 e, (run cs init).trace = l1 ++ Event.log (.forcedShutdown e) :: l2 →
      Event.shutdownCalled shutdownTimeout ∈ l1) := by
  have hi := inv_reach cs
  have ho := ord_reach cs
  generalize run cs init = s at hi ho
  have hcount : ∀ d, s.trace.count (.shutdownCalled d) ≤ if d = shutdownTimeout then 1 else 0 := by
    intro d
    rw [hi.shutCount d]
    by_cases hd : d = shutdownTimeout <;> simp [hd]
    split <;> simp
  refine ⟨?_, hcount, ?_, ?_, ho.forcedAfter⟩
  · intro l1 l2 d h
    refine ⟨ho.recvFirst l1 l2 d h, ?_⟩
    by_contra hd
    have h1 := hcount d
    have h2 : Event.shutdownCalled d ∈ s.trace := split_same h
    have h3 := List.count_pos_iff.mpr h2
    simp [hd] at h1
    omega
  · intro l1 l2 n h
    obtain ⟨h1, _, h3⟩ := ho.exitLast l1 l2 n h
    exact ⟨h1, h3⟩
  · intro l1 l2 h
    obtain ⟨_, _, h3⟩ := ho.exitLast l1 l2 0 h
    rcases h3 with h3 | ⟨h3, _⟩
    · exact h3
    · cases h3

/-! ## Signals after the first one -/

theorem pastRecv_step (s : State) (c : Choice) (h : s.mainPc.pastRecv = true) :
    (step s c).mainPc.pastRecv = true := by
  rcases step_sound s c with hs | hs
  · rw [hs]; exact h
  · generalize step s c = t at hs
    cases hs <;> simp_all [fatalf, logPrint, MainPc.pastRecv]

theorem pastRecv_run (cs : List Choice) (s : State) (h : s.mainPc.pastRecv = true) :
    (run cs s).mainPc.pastRecv = true := by
  induction cs generalizing s with
  | nil => exact h
  | cons c cs ih => exact ih _ (pastRecv_step s c h)

theorem hide_signal (s : State) (sig : Signal) :
    (step s (.signal sig)).hideStop = s.hideStop := by
  obtain ⟨m, v, ro, sv, st, no, cx, tr, ex⟩ := s
  cases ex with
  | some n => simp [step]
  | none =>
    cases st with
    | none => simp [step, deliver]
    | some buf =>
      simp only [step, deliver]
      split <;> simp [State.hideStop]

theorem hide_step (s t : State) (c : Choice) (hp : s.mainPc.pastRecv = true)
    (h : s.hideStop = t.hideStop) : (step s c).hideStop = (step t c).hideStop := by
  obtain ⟨m, v, ro, sv, st, no, cx, tr, ex⟩ := s
  obtain ⟨m2, v2, ro2, sv2, st2, no2, cx2, tr2, ex2⟩ := t
  simp only [State.hideStop, State.mk.injEq, true_and, and_true] at h
  obtain ⟨rfl, rfl, rfl, rfl, rfl, rfl, rfl, rfl⟩ := h
  cases ex with
  | some n => simp [step, State.hideStop]
  | none =>
    cases c with
    | signal sig => rw [hide_signal, hide_signal]; rfl
    | mainStep =>
      cases m with
      | shutdownReturned err => cases err <;> simp [step, main, State.hideStop, fatalf]
      | atShutdown => cases cx <;> simp [step, main, State.hideStop]
      | atRecv => simp [MainPc.pastRecv] at hp
      | _ => simp [step, main, State.hideStop, fatalf, logPrint]
    | serverStep =>
      cases v with
      | listenReturned err =>
        cases err with
        | none => simp [step, goFunc, State.hideStop]
        | some e =>
          by_cases he : e = .serverClosed <;> simp [step, goFunc, State.hideStop, fatalf, he]
      | _ => simp [step, goFunc, State.hideStop, fatalf, logPrint, srvAddr]
    | subReturns err =>
      cases m <;> simp [step, State.hideStop]
      simp [MainPc.pastRecv] at hp
    | shutdownReturns err => cases m <;> simp [step, State.hideStop]
    | listenReturns err => cases v <;> simp [step, State.hideStop]

theorem hide_run (cs : List Choice) (s t : State) (hp : s.mainPc.pastRecv = true)
    (h : s.hideStop = t.hideStop) :
    (run cs s).hideStop = (run (cs.filter fun c => !c.isSignal) t).hideStop := by
  induction cs generalizing s t with
  | nil => exact h
  | cons c cs ih =>
    cases c with
    | signal sig =>
      simp only [run_cons, List.filter_cons, Choice.isSignal, Bool.not_true]
      apply ih _ _ (pastRecv_step s _ hp)
      rw [hide_signal]; exact h
    | _ =>
      simp only [run_cons, List.filter_cons, Choice.isSignal, Bool.not_false, if_true]
      exact ih _ _ (pastRecv_step s _ hp) (hide_step s t _ hp h)

/-- C9: once the main goroutine has received the first signal from the stop
channel, further signals have no effect: an execution with any additional
signals delivered and the same execution without them agree in everything
but the contents of the channel (the log, the call of `srv.Shutdown` and its
timeout, the exit status), and the channel is received from exactly once. -/
theorem later_signals_have_no_effect (cs0 cs : List Choice)
    (h : (run cs0 init).mainPc.pastRecv = true) :
    (run (cs0 ++ cs) init).hideStop =
      (run (cs0 ++ cs.filter fun c => !c.isSignal) init).hideStop ∧
    (run (cs0 ++ cs) init).trace = (run (cs0 ++ cs.filter fun c => !c.isSignal) init).trace ∧
    (run (cs0 ++ cs) init).exited = (run (cs0 ++ cs.filter fun c => !c.isSignal) init).exited ∧
    (run (cs0 ++ cs) init).trace.count .received = 1 ∧
    (∀ d, (run (cs0 ++ cs) init).trace.count (.shutdownCalled d) ≤
      if d = shutdownTimeout then 1 else 0) := by
  have hh := hide_run cs (run cs0 init) (run cs0 init) h rfl
  rw [← run_append, ← run_append] at hh
  refine ⟨hh, ?_, ?_, ?_, ?_⟩
  · have h2 := congrArg State.trace hh
    exact h2
  · have h2 := congrArg State.exited hh
    exact h2
  · rw [(inv_reach (cs0 ++ cs)).recvCount, run_append, pastRecv_run cs _ h]
    rfl
  · intro d
    rw [(inv_reach (cs0 ++ cs)).shutCount d]
    by_cases hd : d = shutdownTimeout <;> simp [hd]
    split <;> simp

/-- Instance of C9: three more signals during a clean shutdown. -/
theorem later_signals_have_no_effect_witness :
    (run (untilShutdown ++ [.signal .interrupt, .signal .sigterm, .shutdownReturns none,
        .signal .sigterm, .mainStep, .mainStep, .mainStep]) init).trace =
      (run (untilShutdown ++ [.shutdownReturns none, .mainStep, .mainStep, .mainStep]) init).trace ∧
    (run (untilShutdown ++ [.signal .interrupt, .signal .sigterm, .shutdownReturns none,
        .signal .sigterm, .mainStep, .mainStep, .mainStep]) init).exited = some 0 :=
  ⟨(later_signals_have_no_effect untilShutdown [.signal .interrupt, .signal .sigterm,
      .shutdownReturns none, .signal .sigterm, .mainStep, .mainStep, .mainStep]
      (by decide)).2.1,
   by decide⟩

/-! ## The two kinds of signal -/

theorem notify_step (s : State) (c : Choice)
    (h : s.notify = [] ∨ s.notify = notifySignals) :
    (step s c).notify = [] ∨ (step s c).notify = notifySignals := by
  rcases step_sound s c with hs | hs
  · rw [hs]; exact h
  · generalize step s c = t at hs
    cases hs <;> simp_all [fatalf, logPrint]

theorem erase_step (s t : State) (c d : Choice)
    (hn : s.notify = [] ∨ s.notify = notifySignals)
    (h : s.eraseSignals = t.eraseSignals) (hc : c.eraseSignal = d.eraseSignal) :
    (step s c).eraseSignals = (step t d).eraseSignals := by
  obtain ⟨m, v, ro, sv, st, no, cx, tr, ex⟩ := s
  obtain ⟨m2, v2, ro2, sv2, st2, no2, cx2, tr2, ex2⟩ := t
  simp only [State.eraseSignals, State.mk.injEq] at h
  obtain ⟨rfl, rfl, rfl, rfl, hst, rfl, rfl, rfl, rfl⟩ := h
  cases ex with
  | some n => simpa [step, State.eraseSignals] using hst
  | none =>
    cases c with
    | signal sig =>
      cases d with
      | signal sig2 =>
        cases st with
        | none =>
          cases st2 with
          | none => simp [step, deliver, State.eraseSignals]
          | some b2 => simp at hst
        | some b1 =>
          cases st2 with
          | none => simp at hst
          | some b2 =>
            have hlen : b1.length = b2.length := by
              have := congrArg (Option.map List.length) hst
              simpa using this
            simp only [Option.map_some', Option.some.injEq] at hst
            have hmem : sig ∈ no ↔ sig2 ∈ no := by
              rcases hn with hn | hn <;> simp only at hn <;> rw [hn]
              · simp
              · cases sig <;> cases sig2 <;> simp [notifySignals]
            simp only [step, deliver, hlen, hmem]
            split <;> simp [State.eraseSignals, hst]
      | _ => simp [Choice.eraseSignal] at hc
    | mainStep =>
      cases d <;> simp [Choice.eraseSignal] at hc
      cases m with
      | shutdownReturned err =>
        cases err <;> simpa [step, main, State.eraseSignals, fatalf] using hst
      | atShutdown => cases cx <;> simpa [step, main, State.eraseSignals] using hst
      | atRecv =>
        cases st with
        | none =>
          cases st2 with
          | none => simp [step, main, State.eraseSignals]
          | some b2 => simp at hst
        | some b1 =>
          cases st2 with
          | none => simp at hst
          | some b2 =>
            cases b1 with
            | nil =>
              cases b2 with
              | nil => simp [step, main, State.eraseSignals]
              | cons y b2 => simp at hst
            | cons x b1 =>
              cases b2 with
              | nil => simp at hst
              | cons y b2 =>
                simp at hst
                simp [step, main, State.eraseSignals, hst]
      | _ => simp [step, main, State.eraseSignals, fatalf, logPrint, hst]
    | serverStep =>
      cases d <;> simp [Choice.eraseSignal] at hc
      cases v with
      | listenReturned err =>
        cases err with
        | none => simpa [step, goFunc, State.eraseSignals] using hst
        | some e =>
          by_cases he : e = .serverClosed <;>
            simpa [step, goFunc, State.eraseSignals, fatalf, he] using hst
      | _ => simpa [step, goFunc, State.eraseSignals, fatalf, logPrint, srvAddr] using hst
    | subReturns err =>
      cases d <;> simp [Choice.eraseSignal] at hc
      subst hc
      cases m <;> try simpa [step, State.eraseSignals] using hst
      cases err <;> simpa [step, State.eraseSignals, fatalf] using hst
    | shutdownReturns err =>
      cases d <;> simp [Choice.eraseSignal] at hc
      subst hc
      cases m <;> simp [step, State.eraseSignals, hst]
    | listenReturns err =>
      cases d <;> simp [Choice.eraseSignal] at hc
      subst hc
      cases v <;> simpa [step, State.eraseSignals] using hst

theorem erase_run (cs ds : List Choice) (s t : State)
    (hn : s.notify = [] ∨ s.notify = notifySignals)
    (h : s.eraseSignals = t.eraseSignals)
    (hc : cs.map Choice.eraseSignal = ds.map Choice.eraseSignal) :
    (run cs s).eraseSignals = (run ds t).eraseSignals := by
  induction cs generalizing ds s t with
  | nil =>
    cases ds with
    | nil => exact h
    | cons d ds => simp at hc
  | cons c cs ih =>
    cases ds with
    | nil => simp at hc
    | cons d ds =>
      simp only [List.map_cons, List.cons.injEq] at hc
      exact ih ds _ _ (notify_step s c hn) (erase_step s t c d hn h hc.1) hc.2

/-- C7: both signals are registered on the one stop channel, and two
executions that differ only in the kinds of the signals delivered (same
schedule, same results of `fs.Sub`, `ListenAndServe` and `Shutdown`) agree in
everything but the kinds of the signals buffered in the channel: the same log
messages, the same call of `srv.Shutdown` with its timeout, the same exit
status. -/
theorem signals_trigger_same_shutdown (cs ds : List Choice)
    (h : cs.map Choice.eraseSignal = ds.map Choice.eraseSignal) :
    Signal.interrupt ∈ notifySignals ∧ Signal.sigterm ∈ notifySignals ∧
    (run cs init).notify = (if (run cs init).mainPc.pastNotify then notifySignals else []) ∧
    (run cs init).eraseSignals = (run ds init).eraseSignals ∧
    (run cs init).trace = (run ds init).trace ∧
    (run cs init).ctx = (run ds init).ctx ∧
    (run cs init).exited = (run ds init).exited := by
  have hh := erase_run cs ds init init (Or.inl rfl) rfl h
  refine ⟨by decide, by decide, (inv_reach cs).notify, hh, ?_, ?_, ?_⟩
  · have h2 := congrArg State.trace hh
    exact h2
  · have h2 := congrArg State.ctx hh
    exact h2
  · have h2 := congrArg State.exited hh
    exact h2

/-- Instance of C7: the same clean shutdown, once on an interrupt and once on a
SIGTERM. -/
theorem signals_trigger_same_shutdown_witness :
    (run (shutdownOn .interrupt none) init).trace = (run (shutdownOn .sigterm none) init).trace ∧
    (run (shutdownOn .interrupt none) init).exited = (run (shutdownOn .sigterm none) init).exited ∧
    (run (shutdownOn .sigterm none) init).exited = some 0 :=
  ⟨(signals_trigger_same_shutdown (shutdownOn .interrupt none) (shutdownOn .sigterm none)
      (by decide)).2.2.2.2.1,
   (signals_trigger_same_shutdown (shutdownOn .interrupt none) (shutdownOn .sigterm none)
      (by decide)).2.2.2.2.2.2,
   by decide⟩

/-! ## Shutdown on SIGTERM -/

theorem draining_step (s0 s : State) (c : Choice) (h : Draining s0 s)
    (hshut : ∀ r, c = .shutdownReturns r → r = none)
    (hlisten : ∀ r, c = .listenReturns r → r = some .serverClosed) :
    Draining s0 (step s c) := by
  rcases step_sound s c with hs | hs
  · rw [hs]; exact h
  · generalize step s c = t at hs
    obtain ⟨h1, h2, h3, h4, h5, h6⟩ := h
    constructor
    · clear h4 h5
      cases hs <;> simp_all [fatalf, logPrint, MainPc.pastNotify]
    · clear h1 h3 h4 h5 h6
      cases hs <;> simp_all [fatalf, logPrint, MainPc.pastNotify]
    · clear h1 h4 h5 h6
      cases hs <;> simp_all [fatalf, logPrint, MainPc.pastNotify]
    · clear h1
      cases hs <;> simp_all [fatalf, logPrint, MainPc.pastNotify, shutdownEvents]
    · clear h1 h4 h6
      cases hs <;> simp_all [fatalf, logPrint, MainPc.pastNotify]
    · clear h1 h3 h4 h5
      cases hs <;> simp_all [fatalf, logPrint, MainPc.pastNotify]

theorem draining_run (s0 : State) (cs : List Choice) (s : State) (h : Draining s0 s)
    (hshut : ∀ r, Choice.shutdownReturns r ∈ cs → r = none)
    (hlisten : ∀ r, Choice.listenReturns r ∈ cs → r = some .serverClosed) :
    Draining s0 (run cs s) := by
  induction cs generalizing s with
  | nil => exact h
  | cons c cs ih =>
    rw [run_cons]
    apply ih
    · apply draining_step s0 s c h
      · intro r hr; exact hshut r (by simp [hr])
      · intro r hr; exact hlisten r (by simp [hr])
    · intro r hr; exact hshut r (by simp [hr])
    · intro r hr; exact hlisten r (by simp [hr])

theorem chan_step (s : State) (c : Choice) (b : List Signal) (hs : s.stop = some b) :
    ∃ b2, (step s c).stop = some b2 ∧
      b2.length + (step s c).trace.count .received ≤
        b.length + s.trace.count .received + ([c].filterMap Choice.signalOf).length := by
  rcases step_sound s c with h | h
  · rw [h]; exact ⟨b, hs, by omega⟩
  · generalize step s c = t at h
    cases h <;>
      simp_all [fatalf, logPrint, List.count_append, List.count_cons, List.count_nil,
        Choice.signalOf, stopCapacity]
    · subst hs
      simp
      omega
    · omega

theorem chan_run (cs : List Choice) (s : State) (b : List Signal) (hs : s.stop = some b) :
    ∃ b2, (run cs s).stop = some b2 ∧
      b2.length + (run cs s).trace.count .received ≤
        b.length + s.trace.count .received + (cs.filterMap Choice.signalOf).length := by
  induction cs generalizing s b with
  | nil => exact ⟨b, hs, by simp [run]⟩
  | cons c cs ih =>
    obtain ⟨b1, h1, h2⟩ := chan_step s c b hs
    obtain ⟨b2, h3, h4⟩ := ih (step s c) b1 h1
    refine ⟨b2, by rw [run_cons]; exact h3, ?_⟩
    rw [run_cons]
    have h5 : ((c :: cs).filterMap Choice.signalOf).length =
        ([c].filterMap Choice.signalOf).length + (cs.filterMap Choice.signalOf).length := by
      cases hc : c.signalOf <;> simp [List.filterMap_cons, hc]
      omega
    omega

theorem waiting_step (s : State) (c : Choice) (hc : c.signalOf = none)
    (h : s.mainPc = .atRecv ∧ s.stop = some []) :
    (step s c).mainPc = .atRecv ∧ (step s c).stop = some [] := by
  rcases step_sound s c with hs | hs
  · rw [hs]; exact h
  · generalize step s c = t at hs
    cases hs <;> simp_all [fatalf, logPrint, Choice.signalOf]

theorem waiting_run (cs : List Choice) (s : State)
    (hc : cs.filterMap Choice.signalOf = [])
    (h : s.mainPc = .atRecv ∧ s.stop = some []) :
    (run cs s).mainPc = .atRecv ∧ (run cs s).stop = some [] := by
  induction cs generalizing s with
  | nil => exact h
  | cons c cs ih =>
    rw [run_cons]
    cases hsig : c.signalOf with
    | none =>
      simp only [List.filterMap_cons, hsig] at hc
      exact ih _ hc (waiting_step s c hsig h)
    | some sig => simp [List.filterMap_cons, hsig] at hc

/-- C4, as stated, fails: the listener has started, exactly one SIGTERM is
delivered, no request is in flight, but the signal arrives before
`signal.Notify` has run (line 52).  It is not relayed to the channel, so
whatever is scheduled afterwards, short of another signal, nothing is received
from the channel, `srv.Shutdown` is never called and the process never exits
with status 0. -/
theorem sigterm_before_notify_is_lost :
    (run listenerStarted init).srvPc = .inListen ∧
    (run listenerStarted init).notify = [] ∧
    earlySigterm.filterMap Choice.signalOf = [.sigterm] ∧
    (∀ cs, cs.filterMap Choice.signalOf = [] →
      Event.received ∉ (run (earlySigterm ++ cs) init).trace ∧
      (∀ d, Event.shutdownCalled d ∉ (run (earlySigterm ++ cs) init).trace) ∧
      (run (earlySigterm ++ cs) init).exited ≠ some 0) := by
  refine ⟨by decide, by decide, by decide, ?_⟩
  intro cs hcs
  have hw := waiting_run cs (run earlySigterm init) hcs (by decide)
  have hi := inv_reach (earlySigterm ++ cs)
  rw [run_append] at hi ⊢
  generalize run cs (run earlySigterm init) = t at hw hi
  refine ⟨?_, ?_, ?_⟩
  · intro hmem
    have h := hi.recvCount
    rw [hw.1] at h
    have hpos := List.count_pos_iff.mpr hmem
    simp [MainPc.pastRecv] at h
    omega
  · intro d hmem
    have h := hi.shutCount d
    rw [hw.1] at h
    have hpos := List.count_pos_iff.mpr hmem
    simp [MainPc.calledShutdown] at h
    omega
  · intro h0
    have h := hi.exitZero.mp h0
    rw [hw.1] at h
    cases h

theorem pastNotify_step (s : State) (c : Choice) (h : s.mainPc.pastNotify = true) :
    (step s c).mainPc.pastNotify = true := by
  rcases step_sound s c with hs | hs
  · rw [hs]; exact h
  · generalize step s c = t at hs
    cases hs <;> simp_all [fatalf, logPrint, MainPc.pastNotify]

theorem pending_step (s : State) (c : Choice) (rest : List Choice) (hi : Inv s)
    (hp : s.mainPc.pastNotify = true)
    (h : s.exited = none → s.mainPc = .atRecv →
      (s.stop = some [] ∧ (c :: rest).filterMap Choice.signalOf = [.sigterm]) ∨
        ∃ sig b, s.stop = some (sig :: b)) :
    (step s c).exited = none → (step s c).mainPc = .atRecv →
      ((step s c).stop = some [] ∧ rest.filterMap Choice.signalOf = [.sigterm]) ∨
        ∃ sig b, (step s c).stop = some (sig :: b) := by
  have hn := hi.notify
  rw [hp] at hn
  simp only [if_true] at hn
  clear hi
  cases hex : s.exited with
  | some n => simp [step, hex]
  | none =>
    cases c with
    | signal sig =>
      intro _ hm
      have hm2 : s.mainPc = .atRecv := by
        simp only [step, hex, deliver] at hm
        revert hm
        cases s.stop with
        | none => exact id
        | some buf => simp only; split <;> exact id
      rcases h hex hm2 with ⟨h1, h2⟩ | ⟨x, b, h1⟩
      · right
        simp only [List.filterMap_cons, Choice.signalOf, List.cons.injEq] at h2
        refine ⟨sig, [], ?_⟩
        simp [step, hex, deliver, h1, hn, h2.1, notifySignals, stopCapacity]
      · right
        refine ⟨x, b, ?_⟩
        simp [step, hex, deliver, h1, stopCapacity]
    | _ =>
      simp only [List.filterMap_cons, Choice.signalOf] at h
      rcases step_sound s _ with hs | hs
      · rw [hs]; exact h
      · revert hs
        generalize step s _ = t
        intro hs
        cases hs <;> simp_all [fatalf, logPrint, MainPc.pastNotify]

theorem pending_run (cs : List Choice) (s : State) (hi : Inv s)
    (hp : s.mainPc.pastNotify = true)
    (h : s.exited = none → s.mainPc = .atRecv →
      (s.stop = some [] ∧ cs.filterMap Choice.signalOf = [.sigterm]) ∨
        ∃ sig b, s.stop = some (sig :: b)) :
    (run cs s).exited = none → (run cs s).mainPc = .atRecv →
      ∃ sig b, (run cs s).stop = some (sig :: b) := by
  induction cs generalizing s with
  | nil =>
    intro hex hm
    rcases h hex hm with ⟨_, h2⟩ | h2
    · simp at h2
    · exact h2
  | cons c cs ih =>
    rw [run_cons]
    exact ih (step s c) (inv_run [c] s hi) (pastNotify_step s c hp)
      (pending_step s c cs hi hp h)

theorem finish_draining (s0 t : State) (hd : Draining s0 t) (hi : Inv t)
    (hsig : t.exited = none → t.mainPc = .atRecv → ∃ sig b, t.stop = some (sig :: b)) :
    (run finishShutdown t).exited = some 0 ∧
    (run finishShutdown t).trace = s0.trace ++ shutdownEvents .returned := by
  obtain ⟨h1, h2, h3, h4, h5, h6⟩ := hd
  have hz := hi.exitZero
  clear hi h6
  have hout : (shutdownOutcome shutdownTimeout []).err = none := rfl
  cases hex : t.exited with
  | some n =>
    have hn := h1 n hex
    subst hn
    rw [run_exited _ t 0 hex]
    exact ⟨hex, by rw [h4, hz.mp hex]⟩
  | none =>
    cases hm : t.mainPc with
    | atRecv =>
      obtain ⟨sig, b, hs⟩ := hsig hex hm
      simp [finishShutdown, hout, run_cons, run_nil, step, main, logPrint, hex, hm, hs, h4,
        shutdownEvents]
    | atLogSignal =>
      simp [finishShutdown, hout, run_cons, run_nil, step, main, logPrint, hex, hm, h4,
        shutdownEvents]
    | atCtx =>
      simp [finishShutdown, hout, run_cons, run_nil, step, main, logPrint, hex, hm, h4,
        shutdownEvents]
    | atShutdown =>
      simp [finishShutdown, hout, run_cons, run_nil, step, main, logPrint, hex, hm, h4,
        h5 hm, shutdownEvents]
    | inShutdown =>
      simp [finishShutdown, hout, run_cons, run_nil, step, main, logPrint, hex, hm, h4,
        shutdownEvents]
    | shutdownReturned err =>
      cases err with
      | some e => exact absurd hm (h3 e)
      | none =>
        simp [finishShutdown, hout, run_cons, run_nil, step, main, logPrint, hex, hm, h4,
          shutdownEvents]
    | atLogGraceful =>
      simp [finishShutdown, hout, run_cons, run_nil, step, main, logPrint, hex, hm, h4,
        shutdownEvents]
    | atReturn =>
      simp [finishShutdown, hout, run_cons, run_nil, step, main, logPrint, hex, hm, h4,
        shutdownEvents]
    | returned =>
      rw [hz.mpr hm] at hex
      cases hex
    | _ => simp [hm, MainPc.pastNotify] at h2

/-- C4, amended: take a run in which the main goroutine has registered the
signals and waits at `<-stop` with the channel empty and the listener started,
and continue it with any schedule that delivers exactly one signal, a SIGTERM,
in which `srv.Shutdown` finds no request in flight and `ListenAndServe` returns
only because of the shutdown.  Then the main goroutine's remaining statements
end the process: it has received the signal, logged it, called `srv.Shutdown`
once, with a timeout of exactly 15 seconds, which returned no error within
that deadline, logged the graceful exit and exited with status 0; the server
went from running through shuttingDown to stopped, and the one signal has
been consumed.  If the process has exited before those remaining statements
are scheduled, it is in that same final state. -/
theorem sigterm_clean_shutdown (cs0 cs : List Choice)
    (hmain : (run cs0 init).mainPc = .atRecv) (hstop : (run cs0 init).stop = some [])
    (hsrv : (run cs0 init).srvPc = .inListen) (hlive : (run cs0 init).exited = none)
    (hsig : cs.filterMap Choice.signalOf = [.sigterm])
    (hshut : ∀ r, Choice.shutdownReturns r ∈ cs → r = (shutdownOutcome shutdownTimeout []).err)
    (hlisten : ∀ r, Choice.listenReturns r ∈ cs → r = some .serverClosed) :
    (run (cs0 ++ cs ++ finishShutdown) init).exited = some 0 ∧
    (run (cs0 ++ cs ++ finishShutdown) init).trace = (run cs0 init).trace ++
      [.received, .log .signalReceived, .shutdownCalled (15 * time.Second),
        .log .exitedGracefully, .exit 0] ∧
    (∀ d, Event.shutdownCalled d ∈ (run (cs0 ++ cs ++ finishShutdown) init).trace →
      d = 15 * time.Second ∧ (shutdownOutcome d []).err = none ∧
        (shutdownOutcome d []).elapsed ≤ d) ∧
    phase (run cs0 init) = .running ∧
    compress (phases (cs0 ++ cs ++ finishShutdown) init) =
      [.created, .running, .shuttingDown, .stopped] ∧
    (run (cs0 ++ cs ++ finishShutdown) init).stop = some [] ∧
    ((run (cs0 ++ cs) init).exited = none ∨
      run (cs0 ++ cs) init = run (cs0 ++ cs ++ finishShutdown) init) := by
  have hp0 : (run cs0 init).mainPc.pastNotify = true := by rw [hmain]; rfl
  have hd : Draining (run cs0 init) (run cs (run cs0 init)) := by
    apply draining_run
    · constructor
      · intro n hn; rw [hlive] at hn; cases hn
      · exact hp0
      · intro e; rw [hmain]; simp
      · rw [hmain]; simp [shutdownEvents]
      · rw [hmain]; simp
      · exact Or.inl hsrv
    · intro r hr; exact hshut r hr
    · exact hlisten
  have hpend := pending_run cs (run cs0 init) (inv_reach cs0) hp0
    (fun _ _ => Or.inl ⟨hstop, hsig⟩)
  have hi := inv_reach (cs0 ++ cs)
  rw [run_append] at hi
  obtain ⟨hex, htr⟩ := finish_draining (run cs0 init) (run cs (run cs0 init)) hd hi hpend
  have hfin : run (cs0 ++ cs ++ finishShutdown) init =
      run finishShutdown (run cs (run cs0 init)) := by
    rw [run_append, run_append]
  have hch := chan_run (cs ++ finishShutdown) (run cs0 init) [] hstop
  rw [← run_append, ← List.append_assoc] at hch
  have hr0 := (inv_reach cs0).recvCount
  rw [hmain] at hr0
  have hi2 := inv_reach (cs0 ++ cs ++ finishShutdown)
  have hv := visited_reach (cs0 ++ cs ++ finishShutdown)
  rw [← hfin] at hex htr
  have hret := hi2.exitZero.mp hex
  refine ⟨hex, ?_, ?_, ?_, ?_, ?_, ?_⟩
  · rw [htr]; rfl
  · intro d hmem
    rw [htr] at hmem
    have hno : ∀ d, Event.shutdownCalled d ∉ (run cs0 init).trace := by
      intro d hd0
      have h := (inv_reach cs0).shutCount d
      rw [hmain] at h
      have hpos := List.count_pos_iff.mpr hd0
      simp [MainPc.calledShutdown] at h
      omega
    have hd15 : d = 15 * time.Second := by
      rcases List.mem_append.mp hmem with h | h
      · exact absurd h (hno d)
      · simpa [shutdownEvents, shutdownTimeout] using h
    subst hd15
    exact ⟨rfl, rfl, by decide⟩
  · simp [phase, hlive, hmain]
  · rw [hv]
    unfold visited
    rw [hret, hex]
    rfl
  · obtain ⟨b2, h1, h2⟩ := hch
    have hr1 := hi2.recvCount
    rw [hret] at hr1
    have hs2 : (cs ++ finishShutdown).filterMap Choice.signalOf = [.sigterm] := by
      rw [List.filterMap_append, hsig]
      rfl
    rw [hr1, hr0, hs2] at h2
    simp [MainPc.pastRecv] at h2
    rw [h1, h2]
  · cases hx : (run (cs0 ++ cs) init).exited with
    | none => exact Or.inl rfl
    | some n =>
      right
      rw [run_append (cs0 ++ cs) finishShutdown, run_exited finishShutdown _ n hx]

/-- Instance of C4, amended: after `startup`, a SIGTERM and nothing else. -/
theorem sigterm_clean_shutdown_witness :
    (run (startup ++ [.signal .sigterm] ++ finishShutdown) init).exited = some 0 ∧
    (run (startup ++ [.signal .sigterm] ++ finishShutdown) init).trace =
      (run startup init).trace ++
        [.received, .log .signalReceived, .shutdownCalled (15 * time.Second),
          .log .exitedGracefully, .exit 0] :=
  ⟨(sigterm_clean_shutdown startup [.signal .sigterm]
      (by decide) (by decide) (by decide) (by decide) (by decide)
      (by intro r hr; simp at hr) (by intro r hr; simp at hr)).1,
   (sigterm_clean_shutdown startup [.signal .sigterm]
      (by decide) (by decide) (by decide) (by decide) (by decide)
      (by intro r hr; simp at hr) (by intro r hr; simp at hr)).2.1⟩

/-! ## The fixed durations -/

/-- C10: the fixed durations are ordered read timeout (10 s) < shutdown
deadline (15 s) < write timeout (30 s) < idle timeout (60 s); so a response
in flight for a time `d` with 15 s < d <= 30 s is within its write timeout,
yet `srv.Shutdown` reports the elapsed deadline for it, and the execution
takes the forced-shutdown branch: the error is logged and the process exits
with status 1. -/
theorem shutdown_deadline_below_write_timeout (d : Duration)
    (hlo : shutdownTimeout < d) (hhi : d ≤ srvConfig.WriteTimeout) :
    srvConfig.ReadTimeout = 10 * time.Second ∧ shutdownTimeout = 15 * time.Second ∧
    srvConfig.WriteTimeout = 30 * time.Second ∧ srvConfig.IdleTimeout = 60 * time.Second ∧
    srvConfig.ReadTimeout < shutdownTimeout ∧ shutdownTimeout < srvConfig.WriteTimeout ∧
    srvConfig.WriteTimeout < srvConfig.IdleTimeout ∧
    (15 * time.Second < d ∧ d ≤ 30 * time.Second) ∧
    (shutdownOutcome shutdownTimeout [d]).err = some .deadlineExceeded ∧
    (run (untilShutdown ++
      [.shutdownReturns (shutdownOutcome shutdownTimeout [d]).err, .mainStep]) init).exited
        = some 1 ∧
    (run (untilShutdown ++
      [.shutdownReturns (shutdownOutcome shutdownTimeout [d]).err, .mainStep]) init).trace =
      (run untilShutdown init).trace ++ [.log (.forcedShutdown .deadlineExceeded), .exit 1] := by
  have herr : (shutdownOutcome shutdownTimeout [d]).err = some .deadlineExceeded := by
    have : ¬ d < shutdownTimeout := not_lt.mpr (le_of_lt hlo)
    simp [shutdownOutcome, this]
  rw [herr]
  refine ⟨rfl, rfl, rfl, rfl, by decide, by decide, by decide, ⟨hlo, hhi⟩, rfl, ?_, ?_⟩
  · decide
  · decide

/-- Instance of C10: a response that needs 20 more seconds. -/
theorem shutdown_deadline_below_write_timeout_witness :
    (shutdownOutcome shutdownTimeout [20 * time.Second]).err = some .deadlineExceeded ∧
    (run (untilShutdown ++
      [.shutdownReturns (shutdownOutcome shutdownTimeout [20 * time.Second]).err, .mainStep])
      init).exited = some 1 :=
  ⟨(shutdown_deadline_below_write_timeout (20 * time.Second) (by decide) (by decide)).2.2.2.2.2.2.2.2.1,
   (shutdown_deadline_below_write_timeout (20 * time.Second)
      (by decide) (by decide)).2.2.2.2.2.2.2.2.2.1⟩

end GoSaasLab
